import Mathlib

/-!
Verification of the TopModel geometric classifiers (amide-bond stereo,
alpha-carbon chirality, van-der-Waals clash filtering) against a shallow
embedding of the Python source.

Conventions of the embedding:
* Coordinates are exact rationals (the float coordinates of the source are
  modelled as exact numbers); derived real-valued quantities (Euclidean
  distances, dihedral angles) live in `ℝ`.
* Python exceptions are modelled by the `PyError` sum type and fallible
  functions return `Except PyError _`.
* `Bio.PDB.vectors.calc_dihedral` and the van-der-Waals radius table are
  external collaborators of the repository; functions that consume them are
  parametrised by them.
-/

/-- A 3-D coordinate with exact rational components. -/
structure Vec3 where
  x : ℚ
  y : ℚ
  z : ℚ
deriving DecidableEq

/-- Componentwise difference of two coordinate vectors. -/
def Vec3.sub (a b : Vec3) : Vec3 :=
  ⟨a.x - b.x, a.y - b.y, a.z - b.z⟩

/-- Dot product. -/
def Vec3.dot (a b : Vec3) : ℚ :=
  a.x * b.x + a.y * b.y + a.z * b.z

/-- Cross product. -/
def Vec3.cross (a b : Vec3) : Vec3 :=
  ⟨a.y * b.z - a.z * b.y, a.z * b.x - a.x * b.z, a.x * b.y - a.y * b.x⟩

/-- Squared Euclidean distance between two coordinates (exact, rational). -/
def distSq (a b : Vec3) : ℚ :=
  (a.x - b.x) ^ 2 + (a.y - b.y) ^ 2 + (a.z - b.z) ^ 2

/-- Euclidean distance between two coordinates; this models the norm computed
by Biopython for `atom1 - atom2` (`Atom.__sub__`). -/
noncomputable def vec_dist (a b : Vec3) : ℝ :=
  Real.sqrt ((distSq a b : ℚ) : ℝ)

/-- An atom: name (unique within its residue), element symbol, coordinate. -/
structure Atom where
  name : String
  element : String
  coord : Vec3
deriving DecidableEq

/-- A residue: three-letter name plus its atoms (`Bio.PDB.Residue`). -/
structure Residue where
  resname : String
  atoms : List Atom
deriving DecidableEq

/-- Atom lookup by name, modelling Python `residue[atom_name]`, which raises
`KeyError` when absent (here: `none`). -/
def Residue.get (r : Residue) (aname : String) : Option Atom :=
  r.atoms.find? (fun a => a.name == aname)

/-- Python exceptions raised by the embedded code.
`missingInformationError ""` models `raise MissingInformationError` with no
message; `keyError s` models a bare dictionary `KeyError` on key `s`. -/
inductive PyError where
  | keyError : String → PyError
  | missingInformationError : String → PyError
  | valueError : PyError
  | prolineException : PyError
  | stopIteration : PyError
deriving DecidableEq

/-- Decidable equality for `Except` results (not provided by the library). -/
def exceptDecEq {ε α : Type} [DecidableEq ε] [DecidableEq α] : DecidableEq (Except ε α)
  | .error e, .error f =>
    if h : e = f then .isTrue (by rw [h]) else .isFalse (by simp [h])
  | .error _, .ok _ => .isFalse (by simp)
  | .ok _, .error _ => .isFalse (by simp)
  | .ok x, .ok y =>
    if h : x = y then .isTrue (by rw [h]) else .isFalse (by simp [h])

instance {ε α : Type} [DecidableEq ε] [DecidableEq α] : DecidableEq (Except ε α) :=
  exceptDecEq

/-- `ChiralCenters` enumeration (utils.py): L = 0, D = 10. -/
inductive ChiralCenters where
  | L
  | D
deriving DecidableEq

/-- Enum value of a chirality label (its severity score). -/
def ChiralCenters.value : ChiralCenters → Nat
  | .L => 0
  | .D => 10

/-- `AmideBonds` enumeration (utils.py): TRANS = 0, CIS_PROLINE = 1,
NON_PLANAR = 2, CIS = 10. -/
inductive AmideBonds where
  | TRANS
  | CIS_PROLINE
  | NON_PLANAR
  | CIS
deriving DecidableEq

/-- Enum value of an amide-bond label (its severity score). -/
def AmideBonds.value : AmideBonds → Nat
  | .TRANS => 0
  | .CIS_PROLINE => 1
  | .NON_PLANAR => 2
  | .CIS => 10

/-- `Clashes` enumeration (utils.py): VDW = 1. -/
inductive Clashes where
  | VDW
deriving DecidableEq

/-- A single-residue irregularity record (utils.py `SingleIrregularity`): the
source stores a one-letter code and number derived from the residue via the
external `Bio.SeqUtils.seq1`; we keep the residue itself plus the score. -/
structure SingleIrregularity where
  residue : Residue
  score : Nat
deriving DecidableEq

/-- A residue-pair irregularity record (utils.py `CoupleIrregularity`). -/
structure CoupleIrregularity where
  res_a : Residue
  res_b : Residue
  score : Nat
deriving DecidableEq

/-!  ## Chirality classifier (src/topmodel/check/chirality.py)  -/

/-- `assign_chirality_amino_acid` (chirality.py lines 13-34), translated
lookup-for-lookup: the `CA` and `CB` lookups are wrapped into
`MissingInformationError` (with the Glycine short-circuit on a missing `CB`),
while the `N` and `C` lookups are bare and so surface as `KeyError`.  The
signed triple product `(CA - CB) . ((N - CB) x (C - CB))` decides D (positive)
versus L (negative); an exactly-zero product raises `ValueError`. -/
def assign_chirality_amino_acid (residue : Residue) : Except PyError ChiralCenters :=
  match residue.get "CA" with
  | none => .error (.missingInformationError "")
  | some c_alpha =>
    match residue.get "CB" with
    | none =>
      if residue.resname = "GLY" then .ok .L
      else .error (.missingInformationError "")
    | some c_beta =>
      match residue.get "N" with
      | none => .error (.keyError "N")
      | some n =>
        match residue.get "C" with
        | none => .error (.keyError "C")
        | some c =>
          let assignment :=
            Vec3.dot (Vec3.sub c_alpha.coord c_beta.coord)
              (Vec3.cross (Vec3.sub n.coord c_beta.coord)
                (Vec3.sub c.coord c_beta.coord))
          if assignment > 0 then .ok .D
          else if assignment < 0 then .ok .L
          else .error .valueError

/-- The chirality result dictionary: association list over the enum, in the
insertion order of `{e: [] for e in ChiralCenters}` (Python dicts preserve
insertion order). -/
abbrev ChiralityDict : Type :=
  List (ChiralCenters × List SingleIrregularity)

/-- `chirality[label].append(entry)` for a key already present (both keys are
inserted at initialisation, so the key is always present). -/
def dict_append (d : ChiralityDict) (k : ChiralCenters) (v : SingleIrregularity) :
    ChiralityDict :=
  d.map (fun p => if p.1 = k then (p.1, p.2 ++ [v]) else p)

/-- The residue loop of `get_chirality`, with the dictionary threaded as an
accumulator; the first classification error aborts the whole loop. -/
def chirality_loop (d : ChiralityDict) : List Residue → Except PyError ChiralityDict
  | [] => .ok d
  | r :: rest =>
    match assign_chirality_amino_acid r with
    | .error e => .error e
    | .ok label => chirality_loop (dict_append d label ⟨r, label.value⟩) rest

/-- `get_chirality` (chirality.py lines 37-49): initialise `{L: [], D: []}`
and append one `SingleIrregularity` per residue under its label. -/
def get_chirality (residues : List Residue) : Except PyError ChiralityDict :=
  chirality_loop [(ChiralCenters.L, []), (ChiralCenters.D, [])] residues

/-- The records that `get_chirality` files under label `lab`, in structure
order (helper used to state the partition property). -/
def chir_records (residues : List Residue) (lab : ChiralCenters) :
    List SingleIrregularity :=
  residues.filterMap (fun r =>
    match assign_chirality_amino_acid r with
    | .ok l => if l = lab then some ⟨r, l.value⟩ else none
    | .error _ => none)

/-!  ## Amide bond classifier (src/topmodel/src/amide_bond.py)  -/

/-- The type of the external `Bio.PDB.vectors.calc_dihedral` collaborator:
from the four atom coordinates CA(head), C(head), N(tail), CA(tail) it
returns the dihedral (torsion) angle in radians. -/
abbrev DihedralFn : Type :=
  Vec3 → Vec3 → Vec3 → Vec3 → ℝ

/-- `np.mod x m` for real arguments (`x - m * floor (x / m)`). -/
noncomputable def npMod (x m : ℝ) : ℝ :=
  x - m * ⌊x / m⌋

/-- The atom names of `{'C', 'CA', 'N'}` missing from the union of the two
residues' atom-name sets (amide_bond.py lines 40-42).  The Python set
iteration order is unspecified; we fix the order C, CA, N, which is
irrelevant to the claims (only membership and emptiness matter). -/
def amide_missing_diff (head tail : Residue) : List String :=
  ["C", "CA", "N"].filter
    (fun s => !(((head.atoms ++ tail.atoms).map Atom.name).contains s))

/-- The `MissingInformationError` message built in amide_bond.py lines 43-44:
`", ".join(diff)` followed by the fixed text. -/
def amide_missing_message (head tail : Residue) : String :=
  String.intercalate ", " (amide_missing_diff head tail) ++
    " needed to determine the amide bond orientation"

/-- `assign_stereo` (amide_bond.py lines 31-56).  The four atom lookups feed
the external `calc_dihedral`; a failing lookup raises
`MissingInformationError` with the message above.  Then: chain-break guard
(C-N distance > 2 → TRANS), normalisation of the angle by `np.mod(_, 2*pi)`,
and the threshold classification, with `ProlineException` raised for a
cis-range angle when the tail residue is a proline. -/
noncomputable def assign_stereo (calc_dihedral : DihedralFn) (head tail : Residue) :
    Except PyError AmideBonds :=
  match head.get "CA", head.get "C", tail.get "N", tail.get "CA" with
  | some h_ca, some h_c, some t_n, some t_ca =>
    let angle := calc_dihedral h_ca.coord h_c.coord t_n.coord t_ca.coord
    if vec_dist h_c.coord t_n.coord > 2 then .ok .TRANS
    else
      let a := npMod angle (2 * Real.pi)
      if 5 * Real.pi / 6 ≤ a ∧ a ≤ 7 * Real.pi / 6 then .ok .TRANS
      else if (0 ≤ a ∧ a ≤ Real.pi / 6) ∨ (11 * Real.pi / 6 ≤ a ∧ a ≤ 2 * Real.pi) then
        if tail.resname = "PRO" then .error .prolineException
        else .ok .CIS
      else .ok .NON_PLANAR
  | _, _, _, _ => .error (.missingInformationError (amide_missing_message head tail))

/-- The per-pair body of `get_amid_stereo` (amide_bond.py lines 22-25):
`assign_stereo` with `ProlineException` caught and resolved to
`CIS_PROLINE`. -/
noncomputable def pair_label (calc_dihedral : DihedralFn) (head tail : Residue) :
    Except PyError AmideBonds :=
  match assign_stereo calc_dihedral head tail with
  | .error .prolineException => .ok .CIS_PROLINE
  | r => r

/-- The loop of `get_amid_stereo` over the zipped consecutive pairs, producing
one labeled `CoupleIrregularity` per pair (score = enum value of the label);
the first `MissingInformationError` aborts the loop. -/
noncomputable def amide_pairs (calc_dihedral : DihedralFn) :
    List (Residue × Residue) → Except PyError (List (AmideBonds × CoupleIrregularity))
  | [] => .ok []
  | p :: rest =>
    match pair_label calc_dihedral p.1 p.2 with
    | .error e => .error e
    | .ok label =>
      match amide_pairs calc_dihedral rest with
      | .error e => .error e
      | .ok l => .ok ((label, ⟨p.1, p.2, label.value⟩) :: l)

/-- `get_amid_stereo` (amide_bond.py lines 13-28): two iterators over the
residues, the second advanced by one (`next(tailer)` raises `StopIteration`
on an empty structure), zipped into consecutive pairs. -/
noncomputable def get_amid_stereo (calc_dihedral : DihedralFn) (residues : List Residue) :
    Except PyError (List (AmideBonds × CoupleIrregularity)) :=
  match residues with
  | [] => .error .stopIteration
  | _ :: tl => amide_pairs calc_dihedral (residues.zip tl)

/-- The label demanded by the spec's words (claim C1), as a function of the
raw dihedral angle: normalise into [0, 2*pi), then TRANS on
[5*pi/6, 7*pi/6], CIS (or CIS_PROLINE for a proline tail) on
[0, pi/6] ∪ [11*pi/6, 2*pi), NON_PLANAR otherwise. -/
noncomputable def spec_amide_label (theta : ℝ) (tail_is_proline : Bool) : AmideBonds :=
  let a := 2 * Real.pi * Int.fract (theta / (2 * Real.pi))
  if 5 * Real.pi / 6 ≤ a ∧ a ≤ 7 * Real.pi / 6 then .TRANS
  else if (0 ≤ a ∧ a ≤ Real.pi / 6) ∨ (11 * Real.pi / 6 ≤ a ∧ a < 2 * Real.pi) then
    if tail_is_proline then .CIS_PROLINE else .CIS
  else .NON_PLANAR

/-!  ## Clash detector (src/topmodel/check/clashes.py)  -/

/-- The backbone atom-name set of clashes.py line 27 (`# CD in prolines`):
note the source puts `CD` in the set for every residue. -/
def backbone : List String :=
  ["C", "CA", "N", "O", "CD"]

/-- One candidate atom pair `(a, b)` from `tree.query_pairs(5)`, together
with the residues the atoms belong to and their residue indices
(`atom_to_residue`). -/
structure ClashCandidate where
  atomA : Atom
  atomB : Atom
  residueA : Residue
  residueB : Residue
  resIdxA : Nat
  resIdxB : Nat
deriving DecidableEq

/-- The filter of clashes.py lines 44-46: the candidate pair proceeds to the
distance computation iff the residues differ, the residue pair is not already
recorded in `clashes` (`recorded` models membership in the defaultdict of
sets), and, when the residue indices differ by exactly 1, exactly one of the
two atom names is in the backbone set. -/
def survives_filters (recorded : Nat → Nat → Bool) (cand : ClashCandidate) : Bool :=
  decide (cand.resIdxA ≠ cand.resIdxB) &&
  !(recorded cand.resIdxA cand.resIdxB) &&
  (decide ((cand.resIdxB : ℤ) - (cand.resIdxA : ℤ) ≠ 1) ||
   (backbone.contains cand.atomA.name != backbone.contains cand.atomB.name))

/-- The clash decision of clashes.py lines 51-57 for a surviving candidate
pair: the residue pair is added to `clashes` iff the Euclidean distance is
strictly below the sum of the van-der-Waals radii of the two elements minus
0.5, and the two residues are not both named CYX (disulfide-bridged
cysteines).  `vdw` models the external `VDW_RADII` table. -/
def registers_clash (vdw : String → ℝ) (recorded : Nat → Nat → Bool)
    (cand : ClashCandidate) : Prop :=
  survives_filters recorded cand = true ∧
  vec_dist cand.atomA.coord cand.atomB.coord <
    vdw cand.atomA.element + vdw cand.atomB.element - 0.5 ∧
  ¬(cand.residueA.resname = "CYX" ∧ cand.residueB.resname = "CYX")

/-- The backbone notion demanded by the words of claim C4: {N, CA, C, O} for
every residue, plus CD only when the residue is a proline. -/
def spec_backbone (resname aname : String) : Bool :=
  ["N", "CA", "C", "O"].contains aname || (resname == "PRO" && aname == "CD")

/-!  ## Helper lemmas: chirality dictionary  -/

theorem chirality_loop_eq (residues : List Residue) :
    ∀ (ls ds : List SingleIrregularity) (d : ChiralityDict),
      chirality_loop [(ChiralCenters.L, ls), (ChiralCenters.D, ds)] residues = .ok d →
      d = [(ChiralCenters.L, ls ++ chir_records residues ChiralCenters.L),
           (ChiralCenters.D, ds ++ chir_records residues ChiralCenters.D)] := by
  induction residues with
  | nil =>
    intro ls ds d h
    simp only [chirality_loop] at h
    cases h
    simp [chir_records]
  | cons r rest ih =>
    intro ls ds d h
    cases hr : assign_chirality_amino_acid r with
    | error e => simp [chirality_loop, hr] at h
    | ok label =>
      simp only [chirality_loop, hr] at h
      cases label with
      | L =>
        have heq : dict_append [(ChiralCenters.L, ls), (ChiralCenters.D, ds)]
            ChiralCenters.L ⟨r, ChiralCenters.value ChiralCenters.L⟩ =
            [(ChiralCenters.L, ls ++ [⟨r, ChiralCenters.value ChiralCenters.L⟩]),
             (ChiralCenters.D, ds)] := rfl
        rw [heq] at h
        rw [ih _ _ _ h]
        simp [chir_records, List.filterMap_cons, hr]
      | D =>
        have heq : dict_append [(ChiralCenters.L, ls), (ChiralCenters.D, ds)]
            ChiralCenters.D ⟨r, ChiralCenters.value ChiralCenters.D⟩ =
            [(ChiralCenters.L, ls),
             (ChiralCenters.D, ds ++ [⟨r, ChiralCenters.value ChiralCenters.D⟩])] := rfl
        rw [heq] at h
        rw [ih _ _ _ h]
        simp [chir_records, List.filterMap_cons, hr]

theorem chirality_loop_all_ok (residues : List Residue) :
    ∀ (d0 : ChiralityDict) (d : ChiralityDict), chirality_loop d0 residues = .ok d →
      ∀ r ∈ residues, ∃ l, assign_chirality_amino_acid r = .ok l := by
  induction residues with
  | nil =>
    intro d0 d h r hr
    exact absurd hr (List.not_mem_nil _)
  | cons r0 rest ih =>
    intro d0 d h r hr
    cases hr0 : assign_chirality_amino_acid r0 with
    | error e => simp [chirality_loop, hr0] at h
    | ok label =>
      simp only [chirality_loop, hr0] at h
      rcases List.mem_cons.mp hr with rfl | hmem
      · exact ⟨label, hr0⟩
      · exact ih _ d h r hmem

theorem chir_records_length (residues : List Residue)
    (hall : ∀ r ∈ residues, ∃ l, assign_chirality_amino_acid r = .ok l) :
    (chir_records residues ChiralCenters.L).length +
      (chir_records residues ChiralCenters.D).length = residues.length := by
  induction residues with
  | nil => simp [chir_records]
  | cons r rest ih =>
    obtain ⟨l, hl⟩ := hall r (by simp)
    have hrest : ∀ x ∈ rest, ∃ l2, assign_chirality_amino_acid x = .ok l2 :=
      fun x hx => hall x (by simp [hx])
    have ihr := ih hrest
    cases l with
    | L =>
      simp [chir_records, List.filterMap_cons, hl] at ihr ⊢
      omega
    | D =>
      simp [chir_records, List.filterMap_cons, hl] at ihr ⊢
      omega

/-!  ## Claim theorems: chirality  -/

/-- C3: for every residue containing CA, CB, N and C, the chirality
classifier computes the signed triple product
v = (CA - CB) . ((N - CB) x (C - CB)) and returns D when v > 0, L when
v < 0, and fails with the fatal degenerate-geometry error (the source's
bare `ValueError`) when v = 0. -/
theorem chirality_triple_product_spec (r : Residue) (ca cb n c : Atom)
    (hca : r.get "CA" = some ca) (hcb : r.get "CB" = some cb)
    (hn : r.get "N" = some n) (hc : r.get "C" = some c) :
    assign_chirality_amino_acid r =
      (if 0 < Vec3.dot (Vec3.sub ca.coord cb.coord)
              (Vec3.cross (Vec3.sub n.coord cb.coord) (Vec3.sub c.coord cb.coord))
       then .ok ChiralCenters.D
       else if Vec3.dot (Vec3.sub ca.coord cb.coord)
              (Vec3.cross (Vec3.sub n.coord cb.coord) (Vec3.sub c.coord cb.coord)) < 0
       then .ok ChiralCenters.L
       else .error .valueError) := by
  simp only [assign_chirality_amino_acid, hca, hcb, hn, hc, gt_iff_lt]

/-- Fixture residue for the C3 witness: v = 1 > 0, hence label D. -/
def c3res : Residue :=
  ⟨"ALA", [⟨"CA", "C", ⟨0, 0, 1⟩⟩, ⟨"CB", "C", ⟨0, 0, 0⟩⟩,
           ⟨"N", "N", ⟨1, 0, 0⟩⟩, ⟨"C", "C", ⟨0, 1, 0⟩⟩]⟩

/-- Witness for C3 at a concrete residue with positive triple product. -/
theorem chirality_triple_product_spec_witness :
    c3res.get "CA" = some ⟨"CA", "C", ⟨0, 0, 1⟩⟩ ∧
    assign_chirality_amino_acid c3res = .ok ChiralCenters.D := by
  refine ⟨by decide, ?_⟩
  have h := chirality_triple_product_spec c3res
    ⟨"CA", "C", ⟨0, 0, 1⟩⟩ ⟨"CB", "C", ⟨0, 0, 0⟩⟩
    ⟨"N", "N", ⟨1, 0, 0⟩⟩ ⟨"C", "C", ⟨0, 1, 0⟩⟩
    (by decide) (by decide) (by decide) (by decide)
  rw [h]
  norm_num [Vec3.dot, Vec3.cross, Vec3.sub]

/-- Fixture residue for C8/C10 witnesses: a glycine with CA but no CB (and,
deliberately, no N and no C either). -/
def glyRes : Residue :=
  ⟨"GLY", [⟨"CA", "C", ⟨0, 0, 0⟩⟩]⟩

/-- C8: a residue named GLY that contains CA but no CB is labelled L without
any error and without the triple product (the theorem holds with no
constraint on the presence of N, C or on any coordinate). -/
theorem glycine_no_cb_yields_L (r : Residue) (ca : Atom)
    (hgly : r.resname = "GLY") (hca : r.get "CA" = some ca)
    (hcb : r.get "CB" = none) :
    assign_chirality_amino_acid r = .ok ChiralCenters.L := by
  simp [assign_chirality_amino_acid, hca, hcb, hgly]

/-- Witness for C8: `glyRes` has CA, lacks CB (and even lacks N and C). -/
theorem glycine_no_cb_yields_L_witness :
    (glyRes.resname = "GLY" ∧ glyRes.get "CB" = none ∧ glyRes.get "N" = none) ∧
    assign_chirality_amino_acid glyRes = .ok ChiralCenters.L :=
  ⟨⟨rfl, by decide, by decide⟩,
   glycine_no_cb_yields_L glyRes ⟨"CA", "C", ⟨0, 0, 0⟩⟩ rfl (by decide) (by decide)⟩

/-- Failing input for C9: an alanine with CA, CB and C present but N absent. -/
def c9res : Residue :=
  ⟨"ALA", [⟨"CA", "C", ⟨0, 0, 0⟩⟩, ⟨"CB", "C", ⟨1, 0, 0⟩⟩, ⟨"C", "C", ⟨0, 1, 0⟩⟩]⟩

/-- C9 (code bug): a residue lacking the required atom N (with CA and CB
present) makes the classifier fail with a bare dictionary `KeyError`, not
with the `MissingInformationError` taxonomy the spec requires: the source
wraps only the CA and CB lookups, while `residue['N']` and `residue['C']`
are unguarded. -/
theorem chirality_missing_N_raises_keyerror :
    assign_chirality_amino_acid c9res = .error (.keyError "N") := by
  decide

/-- C10: on success, the chirality mapping has exactly the two keys L and D
in enum order (each present even when empty), the list under each label is
exactly the records of the residues classified with that label in structure
order (so each residue contributes exactly one record to exactly one list),
and the two lengths sum to the residue count. -/
theorem get_chirality_partition (residues : List Residue) (d : ChiralityDict)
    (h : get_chirality residues = .ok d) :
    d.map Prod.fst = [ChiralCenters.L, ChiralCenters.D] ∧
    d = [(ChiralCenters.L, chir_records residues ChiralCenters.L),
         (ChiralCenters.D, chir_records residues ChiralCenters.D)] ∧
    (chir_records residues ChiralCenters.L).length +
      (chir_records residues ChiralCenters.D).length = residues.length := by
  simp only [get_chirality] at h
  have hd := chirality_loop_eq residues [] [] d h
  have hall := chirality_loop_all_ok residues _ d h
  refine ⟨?_, by simpa using hd, chir_records_length residues hall⟩
  rw [hd]
  rfl

/-- Witness for C10 on the one-residue glycine structure. -/
theorem get_chirality_partition_witness :
    get_chirality [glyRes] = .ok [(ChiralCenters.L, [⟨glyRes, 0⟩]), (ChiralCenters.D, [])] ∧
    (chir_records [glyRes] ChiralCenters.L).length +
      (chir_records [glyRes] ChiralCenters.D).length = 1 :=
  ⟨by decide,
   (get_chirality_partition [glyRes]
      [(ChiralCenters.L, [⟨glyRes, 0⟩]), (ChiralCenters.D, [])] (by decide)).2.2⟩

/-!  ## Claim theorems: clash detector  -/

/-- C2: for a candidate atom pair that survives the same-residue,
deduplication and adjacency filters, the residue pair is recorded as a VDW
clash iff the distance is strictly below the sum of the two van-der-Waals
radii minus 0.5 and the residues are not both CYX; in particular a distance
of (r1+r2) - 0.6 registers and a distance of (r1+r2) - 0.4 does not. -/
theorem clash_threshold_spec (vdw : String → ℝ) (recorded : Nat → Nat → Bool)
    (cand : ClashCandidate) (hs : survives_filters recorded cand = true) :
    (registers_clash vdw recorded cand ↔
      (vec_dist cand.atomA.coord cand.atomB.coord <
         vdw cand.atomA.element + vdw cand.atomB.element - 0.5 ∧
       ¬(cand.residueA.resname = "CYX" ∧ cand.residueB.resname = "CYX"))) ∧
    (¬(cand.residueA.resname = "CYX" ∧ cand.residueB.resname = "CYX") →
      (vec_dist cand.atomA.coord cand.atomB.coord =
         vdw cand.atomA.element + vdw cand.atomB.element - 0.6 →
        registers_clash vdw recorded cand) ∧
      (vec_dist cand.atomA.coord cand.atomB.coord =
         vdw cand.atomA.element + vdw cand.atomB.element - 0.4 →
        ¬registers_clash vdw recorded cand)) := by
  constructor
  · unfold registers_clash
    simp [hs]
  · intro hcyx
    constructor
    · intro hd
      refine ⟨hs, ?_, hcyx⟩
      rw [hd]
      have h56 : (0.5 : ℝ) < 0.6 := by norm_num
      linarith
    · rintro hd ⟨-, hlt, -⟩
      rw [hd] at hlt
      have h45 : (0.4 : ℝ) < 0.5 := by norm_num
      linarith

/-- The trivial deduplication state: nothing recorded yet. -/
def rec0 : Nat → Nat → Bool := fun _ _ => false

/-- A constant van-der-Waals table (1.7 for every element, the carbon
radius), for witnesses. -/
noncomputable def vdwC : String → ℝ := fun _ => 17 / 10

/-- Candidate pair for the C2 witness: two carbon atoms of non-adjacent
residues (indices 0 and 2) placed at distance 14/5 = (1.7 + 1.7) - 0.6. -/
def c2cand : ClashCandidate :=
  ⟨⟨"CA", "C", ⟨0, 0, 0⟩⟩, ⟨"CB", "C", ⟨14/5, 0, 0⟩⟩, ⟨"ALA", []⟩, ⟨"ALA", []⟩, 0, 2⟩

/-- Witness for C2: the candidate survives the filters and registers a clash
at distance (r1+r2) - 0.6. -/
theorem clash_threshold_spec_witness :
    survives_filters rec0 c2cand = true ∧ registers_clash vdwC rec0 c2cand := by
  have hs : survives_filters rec0 c2cand = true := by decide
  have hd : vec_dist c2cand.atomA.coord c2cand.atomB.coord =
      vdwC c2cand.atomA.element + vdwC c2cand.atomB.element - 0.6 := by
    show vec_dist ⟨0, 0, 0⟩ ⟨14/5, 0, 0⟩ = 17 / 10 + 17 / 10 - 0.6
    unfold vec_dist
    have hq : ((distSq ⟨0, 0, 0⟩ ⟨14/5, 0, 0⟩ : ℚ) : ℝ) = (14/5 : ℝ) ^ 2 := by
      norm_num [distSq]
    rw [hq, Real.sqrt_sq (by norm_num : (0:ℝ) ≤ 14/5)]
    norm_num
  exact ⟨hs, ((clash_threshold_spec vdwC rec0 c2cand hs).2 (by decide)).1 hd⟩

/-- C4 counterexample input: the sequence-adjacent candidate pair
CD(LYS, index 0) / CG(LYS, index 1). -/
def c4cand : ClashCandidate :=
  ⟨⟨"CD", "C", ⟨0, 0, 0⟩⟩, ⟨"CG", "C", ⟨1, 0, 0⟩⟩, ⟨"LYS", []⟩, ⟨"LYS", []⟩, 0, 1⟩

/-- C4 counterexample: the source lets the adjacent pair CD(LYS)/CG(LYS)
proceed to the distance computation (CD is in the source backbone set for
every residue, clashes.py line 27), although neither atom is a backbone atom
in the claim's sense ({N, CA, C, O} plus CD only for proline), so "exactly
one of the two atoms is a backbone atom" is violated. -/
theorem clash_adjacent_filter_counterexample :
    survives_filters rec0 c4cand = true ∧
    spec_backbone c4cand.residueA.resname c4cand.atomA.name = false ∧
    spec_backbone c4cand.residueB.resname c4cand.atomB.name = false := by
  decide

/-- C4 (amended): the backbone set the filter really uses is
{N, CA, C, O, CD} for every residue (the CD entry is motivated by prolines
but applied unconditionally).  For a sequence-adjacent candidate pair the
filter passes iff the residues differ, the pair is not yet recorded, and
exactly one of the two atom names lies in that set; hence two atoms of that
set in sequence-adjacent residues never register as a clash. -/
theorem clash_adjacent_backbone_filter :
    (∀ (recorded : Nat → Nat → Bool) (cand : ClashCandidate),
      (cand.resIdxB : ℤ) - (cand.resIdxA : ℤ) = 1 →
      (survives_filters recorded cand = true ↔
        (cand.resIdxA ≠ cand.resIdxB ∧ recorded cand.resIdxA cand.resIdxB = false ∧
         backbone.contains cand.atomA.name ≠ backbone.contains cand.atomB.name))) ∧
    (∀ (vdw : String → ℝ) (recorded : Nat → Nat → Bool) (cand : ClashCandidate),
      (cand.resIdxB : ℤ) - (cand.resIdxA : ℤ) = 1 →
      backbone.contains cand.atomA.name = true →
      backbone.contains cand.atomB.name = true →
      ¬registers_clash vdw recorded cand) := by
  constructor
  · intro recorded cand hadj
    simp only [survives_filters, hadj, Bool.and_eq_true, Bool.or_eq_true,
      decide_eq_true_eq, Bool.not_eq_true', bne_iff_ne, ne_eq]
    tauto
  · intro vdw recorded cand hadj hA hB hreg
    obtain ⟨hs, -, -⟩ := hreg
    simp only [survives_filters, hadj, hA, hB, Bool.and_eq_true, Bool.or_eq_true,
      decide_eq_true_eq, Bool.not_eq_true', bne_iff_ne, ne_eq] at hs
    rcases hs.2 with h | h <;> exact h trivial

/-- Adjacent candidate pair with two backbone atoms (CA and N), for the C4
witness. -/
def c4bb : ClashCandidate :=
  ⟨⟨"CA", "C", ⟨0, 0, 0⟩⟩, ⟨"N", "N", ⟨1, 0, 0⟩⟩, ⟨"ALA", []⟩, ⟨"ALA", []⟩, 3, 4⟩

/-- Witness for the amended C4 at a concrete adjacent backbone-backbone
pair. -/
theorem clash_adjacent_backbone_filter_witness :
    ¬registers_clash vdwC rec0 c4bb ∧
    (survives_filters rec0 c4bb = true ↔
      (c4bb.resIdxA ≠ c4bb.resIdxB ∧ rec0 c4bb.resIdxA c4bb.resIdxB = false ∧
       backbone.contains c4bb.atomA.name ≠ backbone.contains c4bb.atomB.name)) :=
  ⟨clash_adjacent_backbone_filter.2 vdwC rec0 c4bb (by decide) (by decide) (by decide),
   clash_adjacent_backbone_filter.1 rec0 c4bb (by decide)⟩

/-!  ## Helper lemmas: np.mod normalisation  -/

theorem npMod_eq_fract (x m : ℝ) (hm : m ≠ 0) :
    npMod x m = m * Int.fract (x / m) := by
  unfold npMod Int.fract
  rw [mul_sub, mul_comm m (x / m), div_mul_cancel₀ x hm]

theorem npMod_nonneg (x m : ℝ) (hm : 0 < m) : 0 ≤ npMod x m := by
  rw [npMod_eq_fract x m hm.ne']
  exact mul_nonneg hm.le (Int.fract_nonneg _)

theorem npMod_lt (x m : ℝ) (hm : 0 < m) : npMod x m < m := by
  rw [npMod_eq_fract x m hm.ne']
  calc m * Int.fract (x / m) < m * 1 :=
        mul_lt_mul_of_pos_left (Int.fract_lt_one _) hm
    _ = m := mul_one m

theorem npMod_eq_self (x m : ℝ) (hm : 0 < m) (h0 : 0 ≤ x) (h1 : x < m) :
    npMod x m = x := by
  unfold npMod
  have hz : ⌊x / m⌋ = 0 := by
    rw [Int.floor_eq_zero_iff, Set.mem_Ico]
    exact ⟨div_nonneg h0 hm.le, (div_lt_one hm).mpr h1⟩
  rw [hz]
  simp

theorem npMod_sub_period (x m : ℝ) (hm : m ≠ 0) :
    npMod (x - m) m = npMod x m := by
  unfold npMod
  have hdiv : (x - m) / m = x / m - 1 := by
    field_simp
  have hfloor : ⌊x / m - 1⌋ = ⌊x / m⌋ - 1 := by
    exact_mod_cast Int.floor_sub_int (x / m) 1
  rw [hdiv, hfloor]
  push_cast
  ring

/-!  ## Helper lemmas: amide classification  -/

theorem assign_stereo_of_bonded
    (cdf : DihedralFn) (head tail : Residue) (h_ca h_c t_n t_ca : Atom)
    (hca : head.get "CA" = some h_ca) (hc : head.get "C" = some h_c)
    (hn : tail.get "N" = some t_n) (hta : tail.get "CA" = some t_ca)
    (hd : vec_dist h_c.coord t_n.coord ≤ 2) :
    assign_stereo cdf head tail =
      (if 5 * Real.pi / 6 ≤ npMod (cdf h_ca.coord h_c.coord t_n.coord t_ca.coord) (2 * Real.pi) ∧
          npMod (cdf h_ca.coord h_c.coord t_n.coord t_ca.coord) (2 * Real.pi) ≤ 7 * Real.pi / 6
       then .ok .TRANS
       else if (0 ≤ npMod (cdf h_ca.coord h_c.coord t_n.coord t_ca.coord) (2 * Real.pi) ∧
                npMod (cdf h_ca.coord h_c.coord t_n.coord t_ca.coord) (2 * Real.pi) ≤ Real.pi / 6) ∨
               (11 * Real.pi / 6 ≤ npMod (cdf h_ca.coord h_c.coord t_n.coord t_ca.coord) (2 * Real.pi) ∧
                npMod (cdf h_ca.coord h_c.coord t_n.coord t_ca.coord) (2 * Real.pi) ≤ 2 * Real.pi)
       then (if tail.resname = "PRO" then .error .prolineException else .ok .CIS)
       else .ok .NON_PLANAR) := by
  simp only [assign_stereo, hca, hc, hn, hta]
  rw [if_neg (not_lt.mpr hd)]

theorem pair_label_eq_spec
    (cdf : DihedralFn) (head tail : Residue) (h_ca h_c t_n t_ca : Atom)
    (hca : head.get "CA" = some h_ca) (hc : head.get "C" = some h_c)
    (hn : tail.get "N" = some t_n) (hta : tail.get "CA" = some t_ca)
    (hd : vec_dist h_c.coord t_n.coord ≤ 2) :
    pair_label cdf head tail =
      .ok (spec_amide_label (cdf h_ca.coord h_c.coord t_n.coord t_ca.coord)
            (tail.resname == "PRO")) := by
  have h2pi : (0:ℝ) < 2 * Real.pi := by positivity
  have hstereo := assign_stereo_of_bonded cdf head tail h_ca h_c t_n t_ca hca hc hn hta hd
  set a := npMod (cdf h_ca.coord h_c.coord t_n.coord t_ca.coord) (2 * Real.pi) with ha
  have ha0 : 0 ≤ a := npMod_nonneg _ _ h2pi
  have ha2 : a < 2 * Real.pi := npMod_lt _ _ h2pi
  have hspec : spec_amide_label (cdf h_ca.coord h_c.coord t_n.coord t_ca.coord)
      (tail.resname == "PRO") =
      (if 5 * Real.pi / 6 ≤ a ∧ a ≤ 7 * Real.pi / 6 then AmideBonds.TRANS
       else if (0 ≤ a ∧ a ≤ Real.pi / 6) ∨ (11 * Real.pi / 6 ≤ a ∧ a < 2 * Real.pi) then
         (if tail.resname == "PRO" then AmideBonds.CIS_PROLINE else AmideBonds.CIS)
       else AmideBonds.NON_PLANAR) := by
    unfold spec_amide_label
    rw [ha, npMod_eq_fract _ _ h2pi.ne']
  rw [hspec]
  unfold pair_label
  rw [hstereo]
  by_cases h1 : 5 * Real.pi / 6 ≤ a ∧ a ≤ 7 * Real.pi / 6
  · rw [if_pos h1, if_pos h1]
  · rw [if_neg h1, if_neg h1]
    by_cases h2 : (0 ≤ a ∧ a ≤ Real.pi / 6) ∨ (11 * Real.pi / 6 ≤ a ∧ a ≤ 2 * Real.pi)
    · have h2s : (0 ≤ a ∧ a ≤ Real.pi / 6) ∨ (11 * Real.pi / 6 ≤ a ∧ a < 2 * Real.pi) := by
        rcases h2 with hx | hx
        · exact Or.inl hx
        · exact Or.inr ⟨hx.1, ha2⟩
      rw [if_pos h2, if_pos h2s]
      by_cases hp : tail.resname = "PRO"
      · simp [hp]
      · simp [hp]
    · have h2s : ¬((0 ≤ a ∧ a ≤ Real.pi / 6) ∨ (11 * Real.pi / 6 ≤ a ∧ a < 2 * Real.pi)) := by
        intro hcon
        apply h2
        rcases hcon with hx | hx
        · exact Or.inl hx
        · exact Or.inr ⟨hx.1, hx.2.le⟩
      rw [if_neg h2, if_neg h2s]

theorem spec_amide_label_eq_of_npMod (t1 t2 : ℝ) (b : Bool)
    (h : npMod t1 (2 * Real.pi) = npMod t2 (2 * Real.pi)) :
    spec_amide_label t1 b = spec_amide_label t2 b := by
  have h2pi : (0:ℝ) < 2 * Real.pi := by positivity
  unfold spec_amide_label
  rw [← npMod_eq_fract _ _ h2pi.ne', ← npMod_eq_fract _ _ h2pi.ne', h]

theorem spec_amide_label_cis_range (b : Bool) :
    spec_amide_label (2 * Real.pi - 0.01) b =
      (if b then AmideBonds.CIS_PROLINE else AmideBonds.CIS) := by
  have hpi := Real.pi_gt_three
  have h2pi : (0:ℝ) < 2 * Real.pi := by positivity
  unfold spec_amide_label
  rw [← npMod_eq_fract _ _ h2pi.ne']
  rw [npMod_eq_self _ _ h2pi (by linarith) (by linarith)]
  rw [if_neg ?hneg, if_pos (Or.inr ⟨by linarith, by linarith⟩)]
  case hneg =>
    rintro ⟨-, hc2⟩
    linarith

theorem spec_amide_label_wrap (b : Bool) :
    spec_amide_label (-0.01) b = spec_amide_label (2 * Real.pi - 0.01) b := by
  apply spec_amide_label_eq_of_npMod
  have h2pi : (0:ℝ) < 2 * Real.pi := by positivity
  have hx : (-0.01 : ℝ) = (2 * Real.pi - 0.01) - 2 * Real.pi := by ring
  rw [hx, npMod_sub_period _ _ h2pi.ne']

/-- A concrete dihedral collaborator returning 0 rad, for witnesses. -/
noncomputable def cd0 : DihedralFn := fun _ _ _ _ => 0

/-- A dihedral collaborator returning -0.01 rad. -/
noncomputable def cdNeg : DihedralFn := fun _ _ _ _ => -0.01

/-- A dihedral collaborator returning 2*pi - 0.01 rad. -/
noncomputable def cdWrap : DihedralFn := fun _ _ _ _ => 2 * Real.pi - 0.01

/-- C1: for every consecutive pair with all four required atoms present and
C(head)-N(tail) distance at most 2, the classifier (with the Proline
exception resolved as in `get_amid_stereo`) returns exactly the label that
the spec's words assign to the dihedral angle normalised into [0, 2*pi)
(`spec_amide_label`); in particular the angles -0.01 rad and 2*pi - 0.01 rad
classify identically, namely into the CIS range (CIS, or CIS_PROLINE for a
proline tail). -/
theorem amide_angle_classification :
    (∀ (cdf : DihedralFn) (head tail : Residue) (h_ca h_c t_n t_ca : Atom),
      head.get "CA" = some h_ca → head.get "C" = some h_c →
      tail.get "N" = some t_n → tail.get "CA" = some t_ca →
      vec_dist h_c.coord t_n.coord ≤ 2 →
      pair_label cdf head tail =
        .ok (spec_amide_label (cdf h_ca.coord h_c.coord t_n.coord t_ca.coord)
              (tail.resname == "PRO"))) ∧
    (∀ (head tail : Residue) (h_ca h_c t_n t_ca : Atom),
      head.get "CA" = some h_ca → head.get "C" = some h_c →
      tail.get "N" = some t_n → tail.get "CA" = some t_ca →
      vec_dist h_c.coord t_n.coord ≤ 2 →
      pair_label cdNeg head tail = pair_label cdWrap head tail ∧
      pair_label cdNeg head tail =
        .ok (if tail.resname == "PRO" then AmideBonds.CIS_PROLINE else AmideBonds.CIS)) := by
  constructor
  · intro cdf head tail h_ca h_c t_n t_ca hca hc hn hta hd
    exact pair_label_eq_spec cdf head tail h_ca h_c t_n t_ca hca hc hn hta hd
  · intro head tail h_ca h_c t_n t_ca hca hc hn hta hd
    have e1 := pair_label_eq_spec cdNeg head tail h_ca h_c t_n t_ca hca hc hn hta hd
    have e2 := pair_label_eq_spec cdWrap head tail h_ca h_c t_n t_ca hca hc hn hta hd
    have hb1 : cdNeg h_ca.coord h_c.coord t_n.coord t_ca.coord = -0.01 := rfl
    have hb2 : cdWrap h_ca.coord h_c.coord t_n.coord t_ca.coord = 2 * Real.pi - 0.01 := rfl
    rw [hb1] at e1
    rw [hb2] at e2
    constructor
    · rw [e1, e2, spec_amide_label_wrap]
    · rw [e1, spec_amide_label_wrap, spec_amide_label_cis_range]

/-- Head residue for the amide witnesses: an alanine with CA and C. -/
def c1head : Residue :=
  ⟨"ALA", [⟨"CA", "C", ⟨-1, 0, 0⟩⟩, ⟨"C", "C", ⟨0, 0, 0⟩⟩]⟩

/-- Tail residue for the amide witnesses: an alanine with N and CA, its N at
distance 1 from the head's C. -/
def c1tail : Residue :=
  ⟨"ALA", [⟨"N", "N", ⟨1, 0, 0⟩⟩, ⟨"CA", "C", ⟨2, 0, 0⟩⟩]⟩

/-- Witness for C1 at a concrete bonded non-proline pair. -/
theorem amide_angle_classification_witness :
    vec_dist (⟨0, 0, 0⟩ : Vec3) ⟨1, 0, 0⟩ ≤ 2 ∧
    pair_label cd0 c1head c1tail = .ok (spec_amide_label 0 false) ∧
    pair_label cdNeg c1head c1tail = pair_label cdWrap c1head c1tail ∧
    pair_label cdNeg c1head c1tail = .ok AmideBonds.CIS := by
  have hd : vec_dist ((⟨"C", "C", ⟨0, 0, 0⟩⟩ : Atom)).coord
      ((⟨"N", "N", ⟨1, 0, 0⟩⟩ : Atom)).coord ≤ 2 := by
    show vec_dist (⟨0, 0, 0⟩ : Vec3) ⟨1, 0, 0⟩ ≤ 2
    unfold vec_dist
    have hq : ((distSq (⟨0, 0, 0⟩ : Vec3) ⟨1, 0, 0⟩ : ℚ) : ℝ) = 1 ^ 2 := by
      norm_num [distSq]
    rw [hq, Real.sqrt_sq (by norm_num : (0:ℝ) ≤ 1)]
    norm_num
  have h1 := amide_angle_classification.1 cd0 c1head c1tail
    ⟨"CA", "C", ⟨-1, 0, 0⟩⟩ ⟨"C", "C", ⟨0, 0, 0⟩⟩ ⟨"N", "N", ⟨1, 0, 0⟩⟩ ⟨"CA", "C", ⟨2, 0, 0⟩⟩
    rfl rfl rfl rfl hd
  have h2 := amide_angle_classification.2 c1head c1tail
    ⟨"CA", "C", ⟨-1, 0, 0⟩⟩ ⟨"C", "C", ⟨0, 0, 0⟩⟩ ⟨"N", "N", ⟨1, 0, 0⟩⟩ ⟨"CA", "C", ⟨2, 0, 0⟩⟩
    rfl rfl rfl rfl hd
  refine ⟨hd, h1, h2.1, ?_⟩
  rw [h2.2]
  rfl

/-- Failing input for C5 (head): an alanine lacking CA but with N and C. -/
def c5head : Residue :=
  ⟨"ALA", [⟨"N", "N", ⟨0, 0, 0⟩⟩, ⟨"C", "C", ⟨1, 0, 0⟩⟩]⟩

/-- Failing input for C5 (tail): a complete alanine backbone (N, CA, C). -/
def c5tail : Residue :=
  ⟨"ALA", [⟨"N", "N", ⟨2, 0, 0⟩⟩, ⟨"CA", "C", ⟨3, 0, 0⟩⟩, ⟨"C", "C", ⟨4, 0, 0⟩⟩]⟩

/-- C5 (code bug): the pair does fail with a `MissingInformationError`, but
the message fails to name the missing atom: amide_bond.py lines 40-43 build
the difference of `{'C','CA','N'}` against the union of BOTH residues'
atom-name sets, so a CA missing only from the head (while the complete tail
contributes C, CA and N to the union) yields an empty difference and the
message " needed to determine the amide bond orientation", naming nothing. -/
theorem amide_missing_atom_message_empty :
    c5head.get "CA" = none ∧
    assign_stereo cd0 c5head c5tail =
      .error (.missingInformationError " needed to determine the amide bond orientation") :=
  ⟨rfl, rfl⟩

/-- C6: with all four required atoms present and C(head)-N(tail) distance
strictly greater than 2 Angstroms, the classifier returns TRANS
unconditionally, whatever the dihedral angle evaluates to. -/
theorem amide_chain_break_trans (cdf : DihedralFn) (head tail : Residue)
    (h_ca h_c t_n t_ca : Atom)
    (hca : head.get "CA" = some h_ca) (hc : head.get "C" = some h_c)
    (hn : tail.get "N" = some t_n) (hta : tail.get "CA" = some t_ca)
    (hd : 2 < vec_dist h_c.coord t_n.coord) :
    assign_stereo cdf head tail = .ok AmideBonds.TRANS := by
  simp only [assign_stereo, hca, hc, hn, hta]
  rw [if_pos hd]

/-- Head residue for the C6/C7 witnesses. -/
def c6head : Residue :=
  ⟨"ALA", [⟨"CA", "C", ⟨-1, 0, 0⟩⟩, ⟨"C", "C", ⟨0, 0, 0⟩⟩]⟩

/-- Tail residue for the C6/C7 witnesses: its N is 3 Angstroms away from the
head's C (a chain break). -/
def c6tail : Residue :=
  ⟨"ALA", [⟨"N", "N", ⟨3, 0, 0⟩⟩, ⟨"CA", "C", ⟨4, 0, 0⟩⟩]⟩

theorem gap_three : (2:ℝ) < vec_dist (⟨0, 0, 0⟩ : Vec3) ⟨3, 0, 0⟩ := by
  unfold vec_dist
  have hq : ((distSq (⟨0, 0, 0⟩ : Vec3) ⟨3, 0, 0⟩ : ℚ) : ℝ) = 3 ^ 2 := by
    norm_num [distSq]
  rw [hq, Real.sqrt_sq (by norm_num : (0:ℝ) ≤ 3)]
  norm_num

/-- Witness for C6 at the concrete chain-break pair. -/
theorem amide_chain_break_trans_witness :
    (2:ℝ) < vec_dist (⟨0, 0, 0⟩ : Vec3) ⟨3, 0, 0⟩ ∧
    assign_stereo cd0 c6head c6tail = .ok AmideBonds.TRANS :=
  ⟨gap_three, amide_chain_break_trans cd0 c6head c6tail
    ⟨"CA", "C", ⟨-1, 0, 0⟩⟩ ⟨"C", "C", ⟨0, 0, 0⟩⟩ ⟨"N", "N", ⟨3, 0, 0⟩⟩ ⟨"CA", "C", ⟨4, 0, 0⟩⟩
    rfl rfl rfl rfl gap_three⟩

/-!  ## Helper lemmas: amide record counting  -/

theorem amide_pairs_map (cdf : DihedralFn) :
    ∀ (ps : List (Residue × Residue)) (l : List (AmideBonds × CoupleIrregularity)),
      amide_pairs cdf ps = .ok l →
      l.map (fun e => (e.2.res_a, e.2.res_b)) = ps := by
  intro ps
  induction ps with
  | nil =>
    intro l h
    simp only [amide_pairs] at h
    cases h
    rfl
  | cons p rest ih =>
    intro l h
    cases hp : pair_label cdf p.1 p.2 with
    | error e => simp [amide_pairs, hp] at h
    | ok label =>
      cases hrest : amide_pairs cdf rest with
      | error e => simp [amide_pairs, hp, hrest] at h
      | ok l2 =>
        simp only [amide_pairs, hp, hrest] at h
        cases h
        simp [ih l2 hrest]

theorem label_count_sum (l : List (AmideBonds × CoupleIrregularity)) :
    (l.filter (fun e => e.1 == AmideBonds.TRANS)).length +
    (l.filter (fun e => e.1 == AmideBonds.CIS_PROLINE)).length +
    (l.filter (fun e => e.1 == AmideBonds.NON_PLANAR)).length +
    (l.filter (fun e => e.1 == AmideBonds.CIS)).length = l.length := by
  induction l with
  | nil => simp
  | cons e rest ih =>
    cases h1 : e.1 <;> simp [List.filter_cons, h1] <;> omega

/-- C7: when `get_amid_stereo` succeeds, it produces exactly
residueCount - 1 labeled pair records, the i-th record holding the residue
pair (i, i+1) (the records project onto the zip of the residue list with its
tail), and the per-label record counts over the four labels sum to
residueCount - 1. -/
theorem amide_count_spec (cdf : DihedralFn) (residues : List Residue)
    (l : List (AmideBonds × CoupleIrregularity))
    (h : get_amid_stereo cdf residues = .ok l) :
    l.length = residues.length - 1 ∧
    l.map (fun e => (e.2.res_a, e.2.res_b)) = residues.zip residues.tail ∧
    ([AmideBonds.TRANS, AmideBonds.CIS_PROLINE, AmideBonds.NON_PLANAR, AmideBonds.CIS].map
        (fun lab => (l.filter (fun e => e.1 == lab)).length)).sum =
      residues.length - 1 := by
  cases residues with
  | nil => simp [get_amid_stereo] at h
  | cons r0 tl =>
    simp only [get_amid_stereo] at h
    have hmap := amide_pairs_map cdf _ l h
    have h2 := congrArg List.length hmap
    rw [List.length_map, List.length_zip, List.length_cons] at h2
    have hmin : min (tl.length + 1) tl.length = tl.length := by omega
    rw [hmin] at h2
    have hsum := label_count_sum l
    refine ⟨by simp [h2], by rw [hmap]; rfl, ?_⟩
    simp only [List.map_cons, List.map_nil, List.sum_cons, List.sum_nil, List.length_cons]
    omega

/-- Witness for C7 on the concrete two-residue structure. -/
theorem amide_count_spec_witness :
    get_amid_stereo cd0 [c6head, c6tail] =
      .ok [(AmideBonds.TRANS, ⟨c6head, c6tail, 0⟩)] ∧
    ([(AmideBonds.TRANS, (⟨c6head, c6tail, 0⟩ : CoupleIrregularity))]).length = 2 - 1 := by
  have h1 : c6head.get "CA" = some ⟨"CA", "C", ⟨-1, 0, 0⟩⟩ := rfl
  have h2 : c6head.get "C" = some ⟨"C", "C", ⟨0, 0, 0⟩⟩ := rfl
  have h3 : c6tail.get "N" = some ⟨"N", "N", ⟨3, 0, 0⟩⟩ := rfl
  have h4 : c6tail.get "CA" = some ⟨"CA", "C", ⟨4, 0, 0⟩⟩ := rfl
  have hstereo : assign_stereo cd0 c6head c6tail = .ok AmideBonds.TRANS := by
    simp only [assign_stereo, h1, h2, h3, h4]
    rw [if_pos gap_three]
  have hpair : pair_label cd0 c6head c6tail = .ok AmideBonds.TRANS := by
    unfold pair_label
    rw [hstereo]
  have hok : get_amid_stereo cd0 [c6head, c6tail] =
      .ok [(AmideBonds.TRANS, ⟨c6head, c6tail, 0⟩)] := by
    simp only [get_amid_stereo, List.zip_cons_cons, List.zip_nil_right, amide_pairs, hpair]
    rfl
  exact ⟨hok, (amide_count_spec cd0 [c6head, c6tail] _ hok).1⟩
